import Mathlib

/-!
Shallow embedding of the hub-and-spoke coordination core of mpi-sppy:
`mpisppy/spin_the_wheel.py` (process-topology construction and the
`WheelSpinner` orchestrator) and `mpisppy/spopt.py` (subproblem solve
handling, probability accounting and the nonanticipative save/restore
cache).  Pure data is modelled directly; MPI communicators are modelled
by the rank lists they would contain; exceptions are modelled with
`Except`.
-/

namespace MpiSppy

/-! ## Process topology (`_make_comms`, spin_the_wheel.py lines 232-249)

`MPI.Comm.Split(key, color)` partitions the ranks `0 .. worldSize-1` by
`color`; within one colour class the new ranks are assigned in increasing
`key` order.  `_make_comms` always passes `key = global_rank`, so a rank's
position inside its communicator is the number of members with a smaller
global rank. -/

/-- The member list (in communicator rank order) of the communicator that
`fullcomm.Split(key=global_rank, color=color g)` gives to global rank `g`,
for a world of size `n`. -/
def splitGroup (n : Nat) (color : Nat → Nat) (g : Nat) : List Nat :=
  (List.range n).filter (fun r => color r == color g)

/-- The rank of `g` inside its `splitGroup`: the number of members of its
colour class with a smaller key (= smaller global rank). -/
def splitRank (n : Nat) (color : Nat → Nat) (g : Nat) : Nat :=
  ((List.range n).filter (fun r => color r == color g && decide (r < g))).length

/-- Colour used for `strata_comm` in `_make_comms`:
`strata_comm = fullcomm.Split(key=global_rank, color=global_rank // n_spcomms)`. -/
def strataColor (n_spcomms g : Nat) : Nat := g / n_spcomms

/-- Colour used for `cylinder_comm` in `_make_comms`:
`cylinder_comm = fullcomm.Split(key=global_rank, color=global_rank % n_spcomms)`. -/
def cylinderColor (n_spcomms g : Nat) : Nat := g % n_spcomms

/-- The strata communicator group of global rank `g` (world size `n_proc`,
`n_spcomms` roles). -/
def strataGroup (n_spcomms n_proc g : Nat) : List Nat :=
  splitGroup n_proc (strataColor n_spcomms) g

/-- The cylinder communicator group of global rank `g`. -/
def cylinderGroup (n_spcomms n_proc g : Nat) : List Nat :=
  splitGroup n_proc (cylinderColor n_spcomms) g

/-- `strata_comm.Get_rank()` for global rank `g`. -/
def strataRank (n_spcomms n_proc g : Nat) : Nat :=
  splitRank n_proc (strataColor n_spcomms) g

/-- `cylinder_comm.Get_rank()` for global rank `g`. -/
def cylinderRank (n_spcomms n_proc g : Nat) : Nat :=
  splitRank n_proc (cylinderColor n_spcomms) g

/-- The error message raised by `_make_comms` on a misshaped process count. -/
def make_comms_error_msg (n_spcomms n_proc : Nat) : String :=
  s!"Need a multiple of {n_spcomms} processes (got {n_proc})"

/-- `_make_comms(n_spcomms, fullcomm)` (spin_the_wheel.py lines 232-249):
raises `RuntimeError` when the world size is not a multiple of the number
of spcomms, before any `Split` is performed; otherwise returns, per global
rank, the strata group and the cylinder group. -/
def make_comms (n_spcomms n_proc : Nat) :
    Except String ((Nat → List Nat) × (Nat → List Nat)) :=
  if n_proc % n_spcomms ≠ 0 then
    .error (make_comms_error_msg n_spcomms n_proc)
  else
    .ok (strataGroup n_spcomms n_proc, cylinderGroup n_spcomms n_proc)

/-! ## WheelSpinner orchestrator (spin_the_wheel.py lines 18-230)

The distributed computation performed inside `run` (construction of the
spcomm, `main`, windows) is abstracted into a `RunEnv` holding the values
that `run` stores on `self` at lines 159-170; the `_ran` guard, the result
attributes and the query surface are modelled exactly. -/

/-- What the hub-and-spoke computation hands back to `run`: the ranks of
this process, the hub bound tracker values, and the local scenario tree
nodes (name, nonanticipative values) read by `local_nonant_cache`. -/
structure RunEnv where
  strata_rank : Nat
  cylinder_rank : Nat
  global_rank : Nat
  bestInner : Option ℚ
  bestOuter : Option ℚ
  nodes : List (String × List ℚ)
deriving DecidableEq

structure WheelSpinner where
  ran : Bool
  strata_rank : Nat
  cylinder_rank : Nat
  global_rank : Nat
  BestInnerBound : Option ℚ
  BestOuterBound : Option ℚ
  nodes : List (String × List ℚ)
deriving DecidableEq

/-- `WheelSpinner.__init__` (lines 20-38): stores the dictionaries and sets
`self._ran = False`; the result attributes do not exist yet (modelled with
inert defaults). -/
def WheelSpinner.init : WheelSpinner :=
  { ran := false, strata_rank := 0, cylinder_rank := 0, global_rank := 0,
    BestInnerBound := none, BestOuterBound := none, nodes := [] }

/-- `WheelSpinner.run` (lines 43-172): raises when `self._ran` is already
set (line 48-49); otherwise performs the hub-and-spoke computation
(abstracted into `env`), stores the results on `self` (lines 159-170, with
the bounds kept only on strata rank 0, lines 165-170) and finally sets
`self._ran = True` (line 172). -/
def WheelSpinner.run (env : RunEnv) (ws : WheelSpinner) : Except String WheelSpinner :=
  if ws.ran then .error "WheelSpinner can only be run once"
  else .ok { ws with
    strata_rank := env.strata_rank,
    cylinder_rank := env.cylinder_rank,
    global_rank := env.global_rank,
    BestInnerBound := if env.strata_rank = 0 then env.bestInner else none,
    BestOuterBound := if env.strata_rank = 0 then env.bestOuter else none,
    nodes := env.nodes,
    ran := true }

/-- `WheelSpinner.spin` (lines 40-41) just forwards to `run`. -/
def WheelSpinner.spin (env : RunEnv) (ws : WheelSpinner) : Except String WheelSpinner :=
  ws.run env

/-- Guard message of the post-run query surface (lines 187, 200, 210). -/
def needRunMsg : String := "Need to call WheelSpinner.run() before querying solutions."

/-- `_determine_innerbound_winner` (lines 219-230): global rank 0 chooses
`last_ib_idx` (or −1 when there is no incumbent) and broadcasts it; each
rank answers whether its own strata rank is the winner.  The broadcast is
modelled by handing every rank the hub-side value `hub_last_ib_idx`. -/
def WheelSpinner.determine_innerbound_winner (hub_last_ib_idx : Option Nat)
    (ws : WheelSpinner) : Bool :=
  let best : Int := match hub_last_ib_idx with
    | none => -1
    | some i => (i : Int)
  (ws.strata_rank : Int) == best

/-- `write_first_stage_solution` (lines 179-190): fails on the `_ran` guard
before touching anything; otherwise writes exactly when this rank is the
inner-bound winner.  The returned `WheelSpinner` is the (unchanged) state
of the object, and the `Bool` reports whether the write happened. -/
def WheelSpinner.write_first_stage_solution (hub_last_ib_idx : Option Nat)
    (ws : WheelSpinner) : WheelSpinner × Except String Bool :=
  if ¬ ws.ran then (ws, .error needRunMsg)
  else (ws, .ok (ws.determine_innerbound_winner hub_last_ib_idx))

/-- `write_tree_solution` (lines 192-203): same guard and winner logic as
`write_first_stage_solution`, writing a directory instead of a file. -/
def WheelSpinner.write_tree_solution (hub_last_ib_idx : Option Nat)
    (ws : WheelSpinner) : WheelSpinner × Except String Bool :=
  if ¬ ws.ran then (ws, .error needRunMsg)
  else (ws, .ok (ws.determine_innerbound_winner hub_last_ib_idx))

/-- `local_nonant_cache` (lines 205-217): fails on the `_ran` guard;
otherwise builds a dict of nonanticipative values keyed by node name,
keeping the first occurrence of each name. -/
def WheelSpinner.local_nonant_cache (ws : WheelSpinner) :
    WheelSpinner × Except String (List (String × List ℚ)) :=
  if ¬ ws.ran then (ws, .error needRunMsg)
  else
    (ws, .ok (ws.nodes.foldl
      (fun acc p => if acc.any (fun q => q.1 == p.1) then acc else acc ++ [p]) []))

/-- `on_hub` (lines 174-177): fails before `run`, else reports whether this
rank is the hub representative. -/
def WheelSpinner.on_hub (ws : WheelSpinner) : WheelSpinner × Except String Bool :=
  if ¬ ws.ran then (ws, .error "Need to call WheelSpinner.run() before finding out.")
  else (ws, .ok (ws.strata_rank == 0))

/-- Modelled from the spec: `best_inner_bound()` belongs to the post-run
result query surface ("all fail fatally if invoked before the run
completes") but its body is not among the provided source files; after a
completed run it reports the tracked best inner bound. -/
def WheelSpinner.best_inner_bound (ws : WheelSpinner) :
    WheelSpinner × Except String (Option ℚ) :=
  if ¬ ws.ran then (ws, .error needRunMsg)
  else (ws, .ok ws.BestInnerBound)

/-- Modelled from the spec: `best_outer_bound()` belongs to the post-run
result query surface ("all fail fatally if invoked before the run
completes") but its body is not among the provided source files; after a
completed run it reports the tracked best outer bound. -/
def WheelSpinner.best_outer_bound (ws : WheelSpinner) :
    WheelSpinner × Except String (Option ℚ) :=
  if ¬ ws.ran then (ws, .error needRunMsg)
  else (ws, .ok ws.BestOuterBound)

/-- A `RunEnv` used to exercise the orchestrator on concrete data. -/
def runEnvDemo : RunEnv :=
  { strata_rank := 0, cylinder_rank := 0, global_rank := 0,
    bestInner := some 7, bestOuter := some 5, nodes := [("ROOT", [1, 2])] }

/-- The state of `WheelSpinner.init` after a completed `run` on
`runEnvDemo`. -/
def wsAfterRun : WheelSpinner :=
  { ran := true, strata_rank := 0, cylinder_rank := 0, global_rank := 0,
    BestInnerBound := some 7, BestOuterBound := some 5, nodes := [("ROOT", [1, 2])] }

/-! ## solve_one failure handling (spopt.py lines 229-297) -/

/-- Abstraction of the guarded solver call at spopt.py lines 229-236: the
`try` block either raises (then `results is None` and
`sputils.not_good_enough_results(None)` holds) or returns a results
object, for which `notGoodEnough` is the value of
`sputils.not_good_enough_results(results)`, `loadFails` says whether
loading the solution (lines 258-262) raises, and the two bounds are the
problem bounds read at lines 271-275. -/
inductive SolverOutcome where
  | raised (e : String)
  | returned (notGoodEnough loadFails : Bool) (lowerBound upperBound : ℚ)
deriving DecidableEq

/-- The `_mpisppy_data` attributes that `solve_one` writes. -/
structure ScenarioData where
  scenario_feasible : Bool
  solution_available : Bool
  outer_bound : Option ℚ
  inner_bound : Option ℚ
deriving DecidableEq

/-- Result of the failure-handling section of `solve_one`: the updated
scenario attributes and whether the gripe diagnostic was printed. -/
structure SolveOneResult where
  data : ScenarioData
  griped : Bool
deriving DecidableEq

/-- The failure-handling core of `SPOpt.solve_one` (spopt.py lines
229-276).  When the solve raised, the not-good-enough branch clears
`scenario_feasible`, gripes when asked, and then line 254-255 re-raises
the solver exception unconditionally — the source performs no
`need_solution` test there; `need_solution` only guards the exception
thrown while loading an available solution (lines 263-265).  An `error`
result carries the scenario state mutated before the raise. -/
def solve_one_core (outcome : SolverOutcome) (gripe need_solution is_minimizing : Bool)
    (d : ScenarioData) : Except (String × SolveOneResult) SolveOneResult :=
  match outcome with
  | .raised e =>
      .error (e, { data := { d with scenario_feasible := false }, griped := gripe })
  | .returned notGoodEnough loadFails lower upper =>
      if notGoodEnough then
        .ok { data := { d with scenario_feasible := false }, griped := gripe }
      else
        if loadFails then
          if need_solution then
            .error ("solution load failure", { data := d, griped := false })
          else
            .ok { data := { d with
                    solution_available := false,
                    outer_bound := some (if is_minimizing then lower else upper),
                    inner_bound := some (if is_minimizing then upper else lower),
                    scenario_feasible := true },
                  griped := false }
        else
          .ok { data := { d with
                  solution_available := true,
                  outer_bound := some (if is_minimizing then lower else upper),
                  inner_bound := some (if is_minimizing then upper else lower),
                  scenario_feasible := true },
                griped := false }

/-! ## set_instance_retry (spopt.py lines 1014-1046) -/

def MAX_ACQUIRE_LICENSE_RETRY_ATTEMPTS : Nat := 5

/-- The `while True` loop of `set_instance_retry`.  `succeeds i` tells
whether the attempt made with `num_retry_attempts = i` succeeds, and
`sleep i` is the value `random.random()` returns before the `i`-th retry.
The source compares `num_retry_attempts == MAX_ACQUIRE_LICENSE_RETRY_ATTEMPTS`;
since the counter starts at 0 and only grows by 1, testing `≥` instead is
equivalent on every reachable counter value and makes the recursion
well-founded.  Returns the counter value at success together with the
backoffs slept, or the fatal `RuntimeError`. -/
def set_instance_retry_go (succeeds : Nat → Bool) (sleep : Nat → ℚ)
    (n : Nat) (slept : List ℚ) : Except String (Nat × List ℚ) :=
  if succeeds n then .ok (n, slept)
  else if MAX_ACQUIRE_LICENSE_RETRY_ATTEMPTS ≤ n then
    .error "Failed to acquire solver license - call to set_instance() failed after 5 retry attempts"
  else
    set_instance_retry_go succeeds sleep (n + 1) (slept ++ [sleep n])
termination_by MAX_ACQUIRE_LICENSE_RETRY_ATTEMPTS + 1 - n
decreasing_by simp_all [MAX_ACQUIRE_LICENSE_RETRY_ATTEMPTS]; omega

/-- `set_instance_retry` (spopt.py lines 1019-1046): enter the loop with
`num_retry_attempts = 0` and nothing slept. -/
def set_instance_retry (succeeds : Nat → Bool) (sleep : Nat → ℚ) :
    Except String (Nat × List ℚ) :=
  set_instance_retry_go succeeds sleep 0 []

/-! ## Probability accounting (spopt.py lines 485-557) -/

/-- The per-scenario attributes read by `_update_E1`, `feas_prob` and
`infeas_prob`. -/
structure Scen where
  mpisppy_probability : ℚ
  scenario_feasible : Bool
deriving DecidableEq

/-- Local loop of `_update_E1` (lines 492-493): add every local scenario's
probability. -/
def local_prob_sum (scens : List Scen) : ℚ :=
  scens.foldl (fun acc s => acc + s.mpisppy_probability) 0

/-- Local loop of `feas_prob` (lines 522-524): add the probabilities of the
feasible local scenarios. -/
def local_feas_sum (scens : List Scen) : ℚ :=
  scens.foldl (fun acc s =>
    if s.scenario_feasible then acc + s.mpisppy_probability else acc) 0

/-- Local loop of `infeas_prob` (lines 549-551): add the probabilities of
the infeasible local scenarios. -/
def local_infeas_sum (scens : List Scen) : ℚ :=
  scens.foldl (fun acc s =>
    if s.scenario_feasible then acc else acc + s.mpisppy_probability) 0

/-- `MPI.Allreduce(…, op=MPI.SUM)` over one value per rank: the world is the
list of the ranks' local scenario lists, and every rank receives the sum
of the local contributions. -/
def allreduce_sum (world : List (List Scen)) (localval : List Scen → ℚ) : ℚ :=
  (world.map localval).foldl (· + ·) 0

/-- `SPOpt._update_E1` (lines 485-499). -/
def update_E1 (world : List (List Scen)) : ℚ := allreduce_sum world local_prob_sum

/-- `SPOpt.feas_prob` (lines 502-530). -/
def feas_prob (world : List (List Scen)) : ℚ := allreduce_sum world local_feas_sum

/-- `SPOpt.infeas_prob` (lines 533-557). -/
def infeas_prob (world : List (List Scen)) : ℚ := allreduce_sum world local_infeas_sum

/-! ## Nonanticipative save/restore cache (spopt.py lines 751-804) -/

/-- One nonanticipative Pyomo Var: its `_value` and fixedness status. -/
structure NonantVar where
  value : ℚ
  fixed : Bool
deriving DecidableEq

/-- The per-scenario state touched by `_save_nonants` and
`_restore_nonants`: the ordered nonanticipative Vars
(`_mpisppy_data.nonant_indices.values()`) and the two caches. -/
structure ScenarioNonants where
  nonants : List NonantVar
  nonant_cache : Option (List ℚ)
  fixedness_cache : Option (List Bool)
deriving DecidableEq

/-- `_save_nonants` on one scenario (lines 795-804): allocate the caches if
absent, then overwrite slot `ci` with the value and fixedness of the
`ci`-th nonant, for every `ci` in the enumeration — so the cache prefix
holding the live Vars is exactly the current values and fixedness. -/
def save_nonants_scen (s : ScenarioNonants) : ScenarioNonants :=
  { s with
    nonant_cache := some (s.nonants.map (fun v => v.value)),
    fixedness_cache := some (s.nonants.map (fun v => v.fixed)) }

/-- `_restore_nonants` on one scenario (lines 764-775): for each `ci` over
the nonant enumeration, set `vardata._value = nonant_cache[ci]` and
`vardata.fixed = fixedness_cache[ci]`.  The source presupposes a prior
`_save_nonants` (the caches exist and cover every index); absent caches
are left untouched here where Python would raise `AttributeError`. -/
def restore_nonants_scen (s : ScenarioNonants) : ScenarioNonants :=
  match s.nonant_cache, s.fixedness_cache with
  | some vals, some fixs =>
      { s with nonants := ((List.range s.nonants.length).map
          (fun ci => { value := vals.getD ci 0, fixed := fixs.getD ci false })) }
  | _, _ => s

/-- `SPOpt._save_nonants` (lines 782-804): loop over the local scenarios. -/
def save_nonants (ss : List ScenarioNonants) : List ScenarioNonants :=
  ss.map save_nonants_scen

/-- `SPOpt._restore_nonants` (lines 751-779): loop over the local
scenarios (persistent-solver notification has no effect on the values). -/
def restore_nonants (ss : List ScenarioNonants) : List ScenarioNonants :=
  ss.map restore_nonants_scen

/-- Arbitrary in-between modification of the nonanticipative Vars of one
scenario (values and fixedness may change; the index structure, i.e. the
number and order of Vars, stays — the source docstring warns it counts on
Pyomo indices not changing order between save and restore). -/
def set_nonants (vars2 : List NonantVar) (s : ScenarioNonants) : ScenarioNonants :=
  { s with nonants := vars2 }

/-! ## Shutdown ordering of WheelSpinner.run (spin_the_wheel.py lines 137-156)

Each rank executes, after its `spcomm.main()` returns: `send_terminate`
(hub ranks only, lines 138-139), `finalize` (line 142), the cylinder
barrier (line 145), the full-communicator barrier (line 149),
`hub_finalize` (line 152), `free_windows` (line 153) and the final full
barrier (line 155).  An execution assigns every (rank, action) an instant;
barriers are split into an arrival and a departure, and no rank departs a
barrier before every participating rank has arrived. -/

inductive RunAction where
  | mainEnd | sendTerminate | finalize
  | cylArrive | cylLeave
  | barrier1Arrive | barrier1Leave
  | hubFinalize | freeWindows
  | barrier2Arrive | barrier2Leave
deriving DecidableEq

/-- The straight-line action sequence of one rank in the tail of `run`. -/
def runProgram (isHub : Bool) : List RunAction :=
  [.mainEnd] ++ (if isHub then [.sendTerminate] else []) ++
  [.finalize, .cylArrive, .cylLeave, .barrier1Arrive, .barrier1Leave,
   .hubFinalize, .freeWindows, .barrier2Arrive, .barrier2Leave]

/-- The hub representative of rank `g`'s strata group: the smallest global
rank with `g`'s floor-division colour (it has strata rank 0). -/
def hubOf (k g : Nat) : Nat := (g / k) * k

/-- An execution of the shutdown sequence by `n` ranks with `k` spcomms:
`t g a` is the instant at which rank `g` performs action `a`.  Program
order is respected per rank; no rank leaves a barrier before all of the
barrier's participants arrived; and — modelled from the spec, since the
`spcomm.main`/`send_terminate` bodies are outside the provided sources —
a spoke's `main` loop only exits after observing the termination flag its
hub representative set, so its `main` returns after that
`send_terminate`. -/
structure RunExec (n k : Nat) where
  t : Nat → RunAction → Int
  porder : ∀ g, g < n →
    (runProgram (g % k == 0)).Pairwise (fun a b => t g a < t g b)
  cylSync : ∀ p, p < n → ∀ q, q < n → p % k = q % k →
    t q .cylArrive < t p .cylLeave
  barrier1Sync : ∀ p, p < n → ∀ q, q < n →
    t q .barrier1Arrive < t p .barrier1Leave
  barrier2Sync : ∀ p, p < n → ∀ q, q < n →
    t q .barrier2Arrive < t p .barrier2Leave
  termVisible : ∀ q, q < n → q % k ≠ 0 →
    t (hubOf k q) .sendTerminate < t q .mainEnd

/-- A concrete two-rank (hub + one spoke) execution of the shutdown
sequence, used to witness the ordering theorem. -/
def demoTime : Nat → RunAction → Int
  | 0, .mainEnd => 0
  | 0, .sendTerminate => 2
  | 0, .finalize => 4
  | 0, .cylArrive => 6
  | 0, .cylLeave => 8
  | 0, .barrier1Arrive => 10
  | 0, .barrier1Leave => 14
  | 0, .hubFinalize => 16
  | 0, .freeWindows => 18
  | 0, .barrier2Arrive => 20
  | 0, .barrier2Leave => 24
  | _, .mainEnd => 3
  | _, .sendTerminate => 0
  | _, .finalize => 5
  | _, .cylArrive => 7
  | _, .cylLeave => 9
  | _, .barrier1Arrive => 12
  | _, .barrier1Leave => 13
  | _, .hubFinalize => 15
  | _, .freeWindows => 17
  | _, .barrier2Arrive => 19
  | _, .barrier2Leave => 22

/-- The concrete two-rank execution given by `demoTime` satisfies every
constraint of `RunExec`. -/
def demoExec : RunExec 2 2 where
  t := demoTime
  porder := by decide
  cylSync := by decide
  barrier1Sync := by decide
  barrier2Sync := by decide
  termVisible := by decide

/-! ## Counting helpers -/

theorem length_filter_range_eq_card (n : Nat) (p : Nat → Bool) :
    ((List.range n).filter p).length = ((Finset.range n).filter (fun r => p r = true)).card := by
  induction n with
  | zero => rfl
  | succ n ih =>
      rw [List.range_succ, List.filter_append, List.length_append, ih, Finset.range_succ,
        Finset.filter_insert]
      by_cases hp : p n = true
      · rw [if_pos hp, Finset.card_insert_of_not_mem (by simp)]
        simp [hp]
      · rw [if_neg hp]
        simp [hp]

theorem filter_range_Ico_card (n a b : Nat) (hb : b ≤ n) :
    ((Finset.range n).filter (fun r => a ≤ r ∧ r < b)).card = b - a := by
  have h : (Finset.range n).filter (fun r => a ≤ r ∧ r < b) = Finset.Ico a b := by
    ext r
    simp only [Finset.mem_filter, Finset.mem_range, Finset.mem_Ico]
    omega
  rw [h, Nat.card_Ico]

theorem filter_range_mod_card (m k j : Nat) (hk : 0 < k) (hj : j < k) :
    ((Finset.range (m * k)).filter (fun r => r % k = j)).card = m := by
  conv_rhs => rw [← Finset.card_range m]
  apply Finset.card_bij (fun r _ => r / k)
  · intro r hr
    simp only [Finset.mem_filter, Finset.mem_range] at hr
    simp only [Finset.mem_range]
    exact Nat.div_lt_of_lt_mul (by rw [Nat.mul_comm k m]; exact hr.1)
  · intro r hr r' hr' h
    simp only [Finset.mem_filter, Finset.mem_range] at hr hr'
    calc r = k * (r / k) + r % k := (Nat.div_add_mod r k).symm
      _ = k * (r' / k) + r' % k := by rw [h, hr.2, hr'.2]
      _ = r' := Nat.div_add_mod r' k
  · intro i hi
    simp only [Finset.mem_range] at hi
    refine ⟨i * k + j, ?_, ?_⟩
    · simp only [Finset.mem_filter, Finset.mem_range]
      constructor
      · calc i * k + j < i * k + k := by omega
          _ = (i + 1) * k := by ring
          _ ≤ m * k := Nat.mul_le_mul_right k (by omega)
      · have h1 : i * k + j = k * i + j := by ring
        rw [h1, Nat.mul_add_mod, Nat.mod_eq_of_lt hj]
    · have h1 : i * k + j = k * i + j := by ring
      rw [h1, Nat.mul_add_div hk, Nat.div_eq_of_lt hj]
      rfl

/-! ## Topology lemmas -/

theorem mem_splitGroup {n : Nat} {color : Nat → Nat} {g r : Nat} :
    r ∈ splitGroup n color g ↔ r < n ∧ color r = color g := by
  simp [splitGroup, List.mem_filter, List.mem_range]

theorem mem_strataGroup {k n g r : Nat} :
    r ∈ strataGroup k n g ↔ r < n ∧ r / k = g / k := by
  simp [strataGroup, mem_splitGroup, strataColor]

theorem mem_cylinderGroup {k n g r : Nat} :
    r ∈ cylinderGroup k n g ↔ r < n ∧ r % k = g % k := by
  simp [cylinderGroup, mem_splitGroup, cylinderColor]

/-- Because `_make_comms` splits with `key = global_rank` and
`color = global_rank // n_spcomms`, the rank a process gets inside its
strata communicator is its global rank modulo the number of spcomms. -/
theorem strataRank_eq_mod (k n g : Nat) (hk : 0 < k) (hg : g < n) :
    strataRank k n g = g % k := by
  unfold strataRank splitRank strataColor
  rw [length_filter_range_eq_card]
  have hiff : ∀ r ∈ Finset.range n,
      (((r / k == g / k) && decide (r < g)) = true) ↔ ((g / k) * k ≤ r ∧ r < g) := by
    intro r _
    simp only [Bool.and_eq_true, beq_iff_eq, decide_eq_true_eq]
    constructor
    · rintro ⟨h1, h2⟩
      refine ⟨?_, h2⟩
      calc (g / k) * k = (r / k) * k := by rw [h1]
        _ ≤ r := Nat.div_mul_le_self r k
    · rintro ⟨h1, h2⟩
      have hle : g / k ≤ r / k := (Nat.le_div_iff_mul_le hk).mpr h1
      have hge : r / k ≤ g / k := Nat.div_le_div_right (Nat.le_of_lt h2)
      exact ⟨Nat.le_antisymm hge hle, h2⟩
  rw [Finset.filter_congr hiff, filter_range_Ico_card n ((g / k) * k) g (Nat.le_of_lt hg)]
  have hdm := Nat.div_add_mod g k
  have hcomm : (g / k) * k = k * (g / k) := Nat.mul_comm _ _
  omega

/-- Each cylinder communicator has exactly `n / k` members when `k ∣ n`. -/
theorem cylinderGroup_length (k n g : Nat) (hk : 0 < k) (hdvd : k ∣ n) :
    (cylinderGroup k n g).length = n / k := by
  obtain ⟨m, rfl⟩ := hdvd
  unfold cylinderGroup splitGroup cylinderColor
  rw [length_filter_range_eq_card]
  have hiff : ∀ r ∈ Finset.range (k * m), ((r % k == g % k) = true) ↔ (r % k = g % k) := by
    intro r _
    simp
  rw [Finset.filter_congr hiff, Nat.mul_comm k m,
    filter_range_mod_card m k (g % k) hk (Nat.mod_lt _ hk), Nat.mul_div_cancel _ hk]

/-- Within any strata communicator, exactly one member has strata rank 0
(the member whose global rank is the multiple of `k` at the base of the
group). -/
theorem strataGroup_unique_rank_zero (k n g : Nat) (hk : 0 < k) (hg : g < n) :
    ((strataGroup k n g).filter (fun r => strataRank k n r == 0)).length = 1 := by
  unfold strataGroup splitGroup strataColor
  rw [List.filter_filter, length_filter_range_eq_card]
  have hbase : (g / k) * k ≤ g := Nat.div_mul_le_self g k
  have hiff : ∀ r ∈ Finset.range n,
      (((strataRank k n r == 0) && (r / k == g / k)) = true) ↔
        ((g / k) * k ≤ r ∧ r < (g / k) * k + 1) := by
    intro r hr
    simp only [Finset.mem_range] at hr
    simp only [Bool.and_eq_true, beq_iff_eq]
    rw [strataRank_eq_mod k n r hk hr]
    have hcomm : (g / k) * k = k * (g / k) := Nat.mul_comm _ _
    constructor
    · rintro ⟨h2, h1⟩
      have hdm := Nat.div_add_mod r k
      have hrk : r = k * (g / k) := by rw [← h1]; omega
      omega
    · intro h
      have hreq : r = (g / k) * k := by omega
      subst hreq
      exact ⟨Nat.mul_mod_left _ _, by rw [Nat.mul_div_cancel _ hk]⟩
  rw [Finset.filter_congr hiff,
    filter_range_Ico_card n ((g / k) * k) ((g / k) * k + 1) (by omega)]
  omega

/-! ## Claim C1 -/

/-- C1 counterexample: the claim pairs the communicators with the wrong
colours.  With role count 2 and world size 4, the topology build pairs
global rank 0 with the cylinder group `[0, 2]` (the ranks sharing its
remainder colour), which differs from `[0, 1]`, the class of its
floor-division colour that the claim says forms its cylinder group. -/
theorem make_comms_colors_counterexample :
    make_comms 2 4 = .ok (strataGroup 2 4, cylinderGroup 2 4) ∧
    cylinderGroup 2 4 0 = [0, 2] ∧
    (List.range 4).filter (fun r => r / 2 == 0 / 2) = [0, 1] ∧
    cylinderGroup 2 4 0 ≠ (List.range 4).filter (fun r => r / 2 == 0 / 2) :=
  ⟨rfl, by decide, by decide, by decide⟩

/-- C1 (amended): the topology build splits the world with
`key = global_rank` both times, producing the strata group with colour
`global_rank // role_count` and the cylinder group with colour
`global_rank % role_count`: processes sharing the same floor-division
colour form a strata group and processes sharing the same remainder
colour form a cylinder group. -/
theorem make_comms_colors_amended (n_spcomms n_proc : Nat) (sg cg : Nat → List Nat)
    (h : make_comms n_spcomms n_proc = .ok (sg, cg)) (g r : Nat) :
    (r ∈ cg g ↔ r < n_proc ∧ r % n_spcomms = g % n_spcomms) ∧
    (r ∈ sg g ↔ r < n_proc ∧ r / n_spcomms = g / n_spcomms) := by
  by_cases hmod : n_proc % n_spcomms = 0
  · simp only [make_comms, hmod, ne_eq, not_true_eq_false, if_false,
      Except.ok.injEq, Prod.mk.injEq] at h
    obtain ⟨h1, h2⟩ := h
    subst h1
    subst h2
    exact ⟨mem_cylinderGroup, mem_strataGroup⟩
  · simp [make_comms, hmod] at h

/-- C1 amended witness at role count 2, world size 4, rank 1, peer 3. -/
theorem make_comms_colors_amended_witness :
    (3 ∈ cylinderGroup 2 4 1 ↔ 3 < 4 ∧ 3 % 2 = 1 % 2) ∧
    (3 ∈ strataGroup 2 4 1 ↔ 3 < 4 ∧ 3 / 2 = 1 / 2) :=
  make_comms_colors_amended 2 4 (strataGroup 2 4) (cylinderGroup 2 4) rfl 1 3

/-! ## Claim C2 -/

/-- C2: for a positive role count, the topology build fails with the fatal
configuration error exactly when the world size is not a multiple of the
role count — before any group is formed, since the error branch precedes
both `Split` calls — and otherwise returns the strata and cylinder groups
and nothing else.  (For a role count of 0 the Python `%` itself raises
`ZeroDivisionError`, a different failure class; the communicator list
always contains at least the hub, so the role count is positive.) -/
theorem make_comms_fail_iff (n_spcomms n_proc : Nat) (_hk : 0 < n_spcomms) :
    (make_comms n_spcomms n_proc = .error (make_comms_error_msg n_spcomms n_proc) ↔
      n_proc % n_spcomms ≠ 0) ∧
    (n_proc % n_spcomms = 0 →
      make_comms n_spcomms n_proc =
        .ok (strataGroup n_spcomms n_proc, cylinderGroup n_spcomms n_proc)) := by
  by_cases h : n_proc % n_spcomms = 0 <;> simp [make_comms, h]

/-- C2 witness: the spec scenario world_size=6, role_count=4 fails because
6 % 4 ≠ 0. -/
theorem make_comms_fail_iff_witness :
    0 < 4 ∧
    ((make_comms 4 6 = .error (make_comms_error_msg 4 6) ↔ 6 % 4 ≠ 0) ∧
     (6 % 4 = 0 →
       make_comms 4 6 = .ok (strataGroup 4 6, cylinderGroup 4 6))) :=
  ⟨by decide, make_comms_fail_iff 4 6 (by decide)⟩

/-! ## Claim C7 -/

/-- C7 counterexample: with role count 2 and world size 4 the cylinder
group of rank 0 is `[0, 2]` and both of its members have strata rank 0, so
it is not the case that exactly one process per cylinder group has strata
rank 0 (that holds for strata groups instead). -/
theorem run_hub_assignment_counterexample :
    ((cylinderGroup 2 4 0).filter (fun r => strataRank 2 4 r == 0)).length = 2 ∧
    ((cylinderGroup 2 4 0).filter (fun r => strataRank 2 4 r == 0)).length ≠ 1 := by
  decide

/-- C7 (amended): for every valid configuration (world size an exact
multiple of the role count `spokes.length + 1`), a process's strata rank
is its global rank modulo the role count, exactly one process per strata
group has strata rank 0, every process with strata rank 0 is assigned the
hub's communicator dictionary because the hub dictionary sits first in
the communicator list indexed by strata rank, and every cylinder group
has the same size `n / role_count`. -/
theorem run_hub_assignment_amended {Dict : Type} (hub : Dict) (spokes : List Dict)
    (n : Nat) (hdvd : (spokes.length + 1) ∣ n) (g : Nat) (hg : g < n) :
    strataRank (spokes.length + 1) n g = g % (spokes.length + 1) ∧
    ((strataGroup (spokes.length + 1) n g).filter
        (fun r => strataRank (spokes.length + 1) n r == 0)).length = 1 ∧
    (strataRank (spokes.length + 1) n g = 0 →
      (hub :: spokes).get? (strataRank (spokes.length + 1) n g) = some hub) ∧
    (cylinderGroup (spokes.length + 1) n g).length = n / (spokes.length + 1) := by
  have hk : 0 < spokes.length + 1 := Nat.succ_pos _
  refine ⟨strataRank_eq_mod _ _ _ hk hg, strataGroup_unique_rank_zero _ _ _ hk hg,
    ?_, cylinderGroup_length _ _ _ hk hdvd⟩
  intro h0
  rw [h0]
  rfl

/-- C7 amended witness: one hub dictionary and one spoke dictionary on a
world of four ranks, checked at global rank 2. -/
theorem run_hub_assignment_amended_witness :
    strataRank 2 4 2 = 2 % 2 ∧
    ((strataGroup 2 4 2).filter (fun r => strataRank 2 4 r == 0)).length = 1 ∧
    (strataRank 2 4 2 = 0 →
      ("hub" :: ["spoke"]).get? (strataRank 2 4 2) = some "hub") ∧
    (cylinderGroup 2 4 2).length = 4 / 2 :=
  run_hub_assignment_amended "hub" ["spoke"] 4 (by decide) 2 (by decide)

/-! ## Claim C5 -/

/-- C5: once `run()` has completed on a `WheelSpinner`, any further `run()`
or `spin()` on the resulting instance raises the fatal "can only be run
once" error instead of re-executing: the guard fires before any work, so
the run is never performed twice. -/
theorem wheelspinner_run_once (env env2 : RunEnv) (ws ws2 : WheelSpinner)
    (h : ws.run env = .ok ws2) :
    ws2.run env2 = .error "WheelSpinner can only be run once" ∧
    ws2.spin env2 = .error "WheelSpinner can only be run once" := by
  unfold WheelSpinner.run at h
  by_cases hr : ws.ran
  · simp [hr] at h
  · rw [if_neg hr] at h
    injection h with h2
    subst h2
    constructor <;> simp [WheelSpinner.run, WheelSpinner.spin]

/-- C5 witness: a fresh spinner runs once successfully; the instance it
leaves behind refuses both `run` and `spin`. -/
theorem wheelspinner_run_once_witness :
    wsAfterRun.run runEnvDemo = .error "WheelSpinner can only be run once" ∧
    wsAfterRun.spin runEnvDemo = .error "WheelSpinner can only be run once" :=
  wheelspinner_run_once runEnvDemo runEnvDemo .init wsAfterRun rfl

/-! ## Claim C6 -/

/-- C6: on a `WheelSpinner` whose `run()` has not completed, each of the
post-run result queries — `best_inner_bound()`, `best_outer_bound()`,
`write_first_stage_solution`, `write_tree_solution` and
`local_nonant_cache()` — fails fatally, and each returns the object in
its original state, having modified nothing before failing.
(`best_inner_bound`/`best_outer_bound` are modelled from the spec; the
other three carry the `_ran` guard at spin_the_wheel.py lines 186, 199
and 209.) -/
theorem query_surface_requires_run (ws : WheelSpinner) (hub_ib : Option Nat)
    (h : ws.ran = false) :
    ws.best_inner_bound = (ws, .error needRunMsg) ∧
    ws.best_outer_bound = (ws, .error needRunMsg) ∧
    ws.write_first_stage_solution hub_ib = (ws, .error needRunMsg) ∧
    ws.write_tree_solution hub_ib = (ws, .error needRunMsg) ∧
    ws.local_nonant_cache = (ws, .error needRunMsg) := by
  refine ⟨?_, ?_, ?_, ?_, ?_⟩ <;>
    simp [WheelSpinner.best_inner_bound, WheelSpinner.best_outer_bound,
      WheelSpinner.write_first_stage_solution, WheelSpinner.write_tree_solution,
      WheelSpinner.local_nonant_cache, h]

/-- C6 witness: the freshly constructed spinner rejects all five queries
without changing state. -/
theorem query_surface_requires_run_witness :
    WheelSpinner.init.best_inner_bound = (.init, .error needRunMsg) ∧
    WheelSpinner.init.best_outer_bound = (.init, .error needRunMsg) ∧
    WheelSpinner.init.write_first_stage_solution (some 1) = (.init, .error needRunMsg) ∧
    WheelSpinner.init.write_tree_solution (some 1) = (.init, .error needRunMsg) ∧
    WheelSpinner.init.local_nonant_cache = (.init, .error needRunMsg) :=
  query_surface_requires_run .init (some 1) rfl

/-! ## Claim C3 -/

/-- C3: the claim says a solver-exception failure propagates out of
`solve_one` only when the caller passed `need_solution=True`; but spopt.py
line 254-255 re-raises the stored solver exception with no `need_solution`
test, contradicting the function's own docstring for `need_solution`
("If True, raises an exception if a solution is not available").  At the
concrete input below — the solve raises, `gripe=False`,
`need_solution=False` — the call still propagates the exception (after
recording `scenario_feasible=False`), where the claim and the docstring
promise a normal return with the failure merely recorded. -/
theorem solve_one_raises_despite_need_solution_false :
    solve_one_core (.raised "license error") false false true
        { scenario_feasible := true, solution_available := false,
          outer_bound := none, inner_bound := none } =
      .error ("license error",
        { data := { scenario_feasible := false, solution_available := false,
                    outer_bound := none, inner_bound := none },
          griped := false }) :=
  rfl

/-! ## Claim C4 -/

/-- Unfolding the retry loop from counter `n`: when the attempts at
`n, n+1, …, n+j-1` fail and the attempt at `n+j` succeeds within the
budget, the loop returns at counter `n+j` having slept exactly the
backoffs of the failed attempts. -/
theorem set_instance_retry_go_success (succeeds : Nat → Bool) (sleep : Nat → ℚ) :
    ∀ (j n : Nat) (slept : List ℚ),
      (∀ i, i < j → succeeds (n + i) = false) → succeeds (n + j) = true → n + j ≤ 5 →
      set_instance_retry_go succeeds sleep n slept =
        .ok (n + j, slept ++ (List.range' n j).map sleep) := by
  intro j
  induction j with
  | zero =>
      intro n slept hfail hsucc hle
      rw [set_instance_retry_go]
      simp only [Nat.add_zero] at hsucc
      simp [hsucc]
  | succ j ih =>
      intro n slept hfail hsucc hle
      have h0 : succeeds n = false := by simpa using hfail 0 (Nat.succ_pos j)
      have hn5 : ¬ (MAX_ACQUIRE_LICENSE_RETRY_ATTEMPTS ≤ n) := by
        simp only [MAX_ACQUIRE_LICENSE_RETRY_ATTEMPTS]
        omega
      rw [set_instance_retry_go, h0]
      simp only [Bool.false_eq_true, if_false]
      rw [if_neg hn5]
      have hstep := ih (n + 1) (slept ++ [sleep n])
        (fun i hi => by
          have := hfail (i + 1) (by omega)
          simpa [Nat.add_assoc, Nat.add_comm 1 i] using this)
        (by
          have : n + 1 + j = n + (j + 1) := by omega
          rw [this]
          exact hsucc)
        (by omega)
      rw [hstep]
      have harith : n + 1 + j = n + (j + 1) := by omega
      rw [harith, List.range'_succ, List.map_cons, List.append_cons]
      simp

/-- Unfolding the retry loop from counter `n` with `5 - n` steps left: when
every attempt in the budget fails, the loop raises the fatal error. -/
theorem set_instance_retry_go_exhaust (succeeds : Nat → Bool) (sleep : Nat → ℚ) :
    ∀ (m n : Nat) (slept : List ℚ), n + m = 5 → (∀ i, i ≤ 5 → succeeds i = false) →
      set_instance_retry_go succeeds sleep n slept =
        .error "Failed to acquire solver license - call to set_instance() failed after 5 retry attempts" := by
  intro m
  induction m with
  | zero =>
      intro n slept h5 hfail
      have hn : n = 5 := by omega
      subst hn
      rw [set_instance_retry_go, hfail 5 (Nat.le_refl 5)]
      simp [MAX_ACQUIRE_LICENSE_RETRY_ATTEMPTS]
  | succ m ih =>
      intro n slept h5 hfail
      have hn : succeeds n = false := hfail n (by omega)
      have hn5 : ¬ (MAX_ACQUIRE_LICENSE_RETRY_ATTEMPTS ≤ n) := by
        simp only [MAX_ACQUIRE_LICENSE_RETRY_ATTEMPTS]
        omega
      rw [set_instance_retry_go, hn]
      simp only [Bool.false_eq_true, if_false]
      rw [if_neg hn5]
      exact ih (n + 1) (slept ++ [sleep n]) (by omega) hfail

/-- C4: `set_instance_retry` calls `set_instance` until it succeeds or the
budget is exhausted.  If every one of the six attempts (counters 0..5 — the
first attempt plus at most 5 retries) fails, it raises the fatal
`RuntimeError`; if the first success happens at counter `j ≤ 5`, it
returns normally at that attempt, having performed exactly `j` randomized
backoffs, each (by the `random.random()` contract, the `hsleep`
hypothesis) at least 0 and strictly less than one second. -/
theorem set_instance_retry_spec (succeeds : Nat → Bool) (sleep : Nat → ℚ)
    (hsleep : ∀ i, 0 ≤ sleep i ∧ sleep i < 1) :
    ((∀ i, i ≤ 5 → succeeds i = false) →
      set_instance_retry succeeds sleep =
        .error "Failed to acquire solver license - call to set_instance() failed after 5 retry attempts") ∧
    (∀ j, j ≤ 5 → (∀ i, i < j → succeeds i = false) → succeeds j = true →
      set_instance_retry succeeds sleep = .ok (j, (List.range j).map sleep) ∧
      ((List.range j).map sleep).length = j ∧
      (∀ q ∈ (List.range j).map sleep, 0 ≤ q ∧ q < 1)) := by
  constructor
  · intro hfail
    exact set_instance_retry_go_exhaust succeeds sleep 5 0 [] (by omega) hfail
  · intro j hj hfail hsucc
    refine ⟨?_, by simp, ?_⟩
    · have h := set_instance_retry_go_success succeeds sleep j 0 []
        (fun i hi => by simpa using hfail i hi) (by simpa using hsucc) (by omega)
      unfold set_instance_retry
      rw [h]
      simp [List.range_eq_range']
    · intro q hq
      simp only [List.mem_map] at hq
      obtain ⟨i, _, rfl⟩ := hq
      exact hsleep i

/-- C4 witness: failures at counters 0 and 1, success at 2, with constant
half-second backoffs: two retries, both sub-second, then a normal return. -/
theorem set_instance_retry_spec_witness :
    set_instance_retry (fun i => i == 2) (fun _ => (1 : ℚ)/2) =
      .ok (2, (List.range 2).map (fun _ => (1 : ℚ)/2)) ∧
    ((List.range 2).map (fun _ => (1 : ℚ)/2)).length = 2 ∧
    (∀ q ∈ (List.range 2).map (fun _ => (1 : ℚ)/2), 0 ≤ q ∧ q < 1) :=
  (set_instance_retry_spec (fun i => i == 2) (fun _ => (1 : ℚ)/2)
      (fun _ => ⟨by norm_num, by norm_num⟩)).2 2 (by decide)
    (fun i hi => by
      simp only [beq_eq_false_iff_ne, ne_eq]
      omega)
    (by decide)

/-! ## Claim C9 -/

theorem foldl_add_map {α : Type} (f : α → ℚ) :
    ∀ (l : List α) (a : ℚ), l.foldl (fun acc s => acc + f s) a = a + (l.map f).sum := by
  intro l
  induction l with
  | nil => intro a; simp
  | cons x xs ih =>
      intro a
      rw [List.foldl_cons, ih, List.map_cons, List.sum_cons]
      ring

theorem local_prob_sum_eq (l : List Scen) :
    local_prob_sum l = (l.map (fun s => s.mpisppy_probability)).sum := by
  unfold local_prob_sum
  rw [foldl_add_map]
  ring

theorem local_feas_sum_eq (l : List Scen) :
    local_feas_sum l =
      (l.map (fun s => if s.scenario_feasible then s.mpisppy_probability else 0)).sum := by
  unfold local_feas_sum
  have hfn : (fun (acc : ℚ) (s : Scen) =>
        if s.scenario_feasible then acc + s.mpisppy_probability else acc)
      = (fun acc s => acc + (if s.scenario_feasible then s.mpisppy_probability else 0)) := by
    funext acc s
    by_cases h : s.scenario_feasible <;> simp [h]
  rw [hfn, foldl_add_map]
  ring

theorem local_infeas_sum_eq (l : List Scen) :
    local_infeas_sum l =
      (l.map (fun s => if s.scenario_feasible then 0 else s.mpisppy_probability)).sum := by
  unfold local_infeas_sum
  have hfn : (fun (acc : ℚ) (s : Scen) =>
        if s.scenario_feasible then acc else acc + s.mpisppy_probability)
      = (fun acc s => acc + (if s.scenario_feasible then 0 else s.mpisppy_probability)) := by
    funext acc s
    by_cases h : s.scenario_feasible <;> simp [h]
  rw [hfn, foldl_add_map]
  ring

theorem allreduce_sum_eq (world : List (List Scen)) (f : List Scen → ℚ) :
    allreduce_sum world f = (world.map f).sum := by
  unfold allreduce_sum
  show (world.map f).foldl (fun acc s => acc + id s) 0 = (world.map f).sum
  rw [foldl_add_map]
  simp

theorem sum_map_add {α : Type} (f g : α → ℚ) (l : List α) :
    (l.map (fun x => f x + g x)).sum = (l.map f).sum + (l.map g).sum := by
  induction l with
  | nil => simp
  | cons x xs ih =>
      simp only [List.map_cons, List.sum_cons, ih]
      ring

/-- Per scenario list: the feasible-probability sum and the
infeasible-probability sum partition the total probability. -/
theorem local_partition (l : List Scen) :
    local_feas_sum l + local_infeas_sum l = local_prob_sum l := by
  rw [local_feas_sum_eq, local_infeas_sum_eq, local_prob_sum_eq, ← sum_map_add]
  have hfn : (fun (s : Scen) =>
        (if s.scenario_feasible then s.mpisppy_probability else 0) +
        (if s.scenario_feasible then 0 else s.mpisppy_probability))
      = (fun s => s.mpisppy_probability) := by
    funext s
    by_cases h : s.scenario_feasible <;> simp [h]
  rw [hfn]

/-- The partition identity behind C9, with no positivity assumption:
`feas_prob() + infeas_prob() = E1` because each scenario's probability is
counted in exactly one of the two all-reduced sums. -/
theorem feas_add_infeas (world : List (List Scen)) :
    feas_prob world + infeas_prob world = update_E1 world := by
  unfold feas_prob infeas_prob update_E1
  rw [allreduce_sum_eq, allreduce_sum_eq, allreduce_sum_eq, ← sum_map_add]
  have hfn : (fun loc => local_feas_sum loc + local_infeas_sum loc)
      = local_prob_sum := by
    funext loc
    exact local_partition loc
  rw [hfn]

theorem sum_eq_zero_iff_of_nonneg (l : List ℚ) (h : ∀ x ∈ l, 0 ≤ x) :
    l.sum = 0 ↔ ∀ x ∈ l, x = 0 := by
  induction l with
  | nil => simp
  | cons x xs ih =>
      have hx : 0 ≤ x := h x (by simp)
      have hxs : ∀ y ∈ xs, 0 ≤ y := fun y hy => h y (by simp [hy])
      have hsum : 0 ≤ xs.sum := List.sum_nonneg hxs
      rw [List.sum_cons]
      constructor
      · intro h0
        have hx0 : x = 0 := by linarith
        have hxs0 : xs.sum = 0 := by linarith
        intro y hy
        rcases List.mem_cons.mp hy with hy0 | hy1
        · rw [hy0, hx0]
        · exact ((ih hxs).mp hxs0) y hy1
      · intro hall
        have hx0 : x = 0 := hall x (by simp)
        have hxs0 : xs.sum = 0 := (ih hxs).mpr (fun y hy => hall y (by simp [hy]))
        rw [hx0, hxs0]
        ring

theorem local_infeas_nonneg (l : List Scen)
    (hpos : ∀ s ∈ l, 0 < s.mpisppy_probability) : 0 ≤ local_infeas_sum l := by
  rw [local_infeas_sum_eq]
  apply List.sum_nonneg
  intro x hx
  simp only [List.mem_map] at hx
  obtain ⟨s, hs, rfl⟩ := hx
  by_cases h : s.scenario_feasible <;> simp [h]
  exact le_of_lt (hpos s hs)

theorem local_infeas_zero_iff (l : List Scen)
    (hpos : ∀ s ∈ l, 0 < s.mpisppy_probability) :
    local_infeas_sum l = 0 ↔ ∀ s ∈ l, s.scenario_feasible = true := by
  rw [local_infeas_sum_eq, sum_eq_zero_iff_of_nonneg]
  · constructor
    · intro h0 s hs
      by_contra hinf
      have := h0 _ (List.mem_map_of_mem _ hs)
      simp only [hinf, if_false] at this
      exact absurd this (ne_of_gt (hpos s hs))
    · intro hall x hx
      simp only [List.mem_map] at hx
      obtain ⟨s, hs, rfl⟩ := hx
      simp [hall s hs]
  · intro x hx
    simp only [List.mem_map] at hx
    obtain ⟨s, hs, rfl⟩ := hx
    by_cases h : s.scenario_feasible <;> simp [h]
    exact le_of_lt (hpos s hs)

/-- C9 (amended): `feas_prob() + infeas_prob() = E1` always (each
scenario's probability is counted in exactly one of the two sums); when
every scenario has positive probability, `feas_prob()` equals E1 exactly
when every scenario is feasible and `infeas_prob()` equals 0 exactly when
every scenario is feasible.  (With a zero-probability scenario only the
forward implications survive, as the counterexample shows.) -/
theorem feas_infeas_partition_amended (world : List (List Scen))
    (hpos : ∀ loc ∈ world, ∀ s ∈ loc, 0 < s.mpisppy_probability) :
    feas_prob world + infeas_prob world = update_E1 world ∧
    (feas_prob world = update_E1 world ↔
      ∀ loc ∈ world, ∀ s ∈ loc, s.scenario_feasible = true) ∧
    (infeas_prob world = 0 ↔
      ∀ loc ∈ world, ∀ s ∈ loc, s.scenario_feasible = true) := by
  have hpart := feas_add_infeas world
  have hzero : infeas_prob world = 0 ↔
      ∀ loc ∈ world, ∀ s ∈ loc, s.scenario_feasible = true := by
    unfold infeas_prob
    rw [allreduce_sum_eq, sum_eq_zero_iff_of_nonneg]
    · constructor
      · intro h0 loc hloc
        exact (local_infeas_zero_iff loc (hpos loc hloc)).mp
          (h0 _ (List.mem_map_of_mem _ hloc))
      · intro hall x hx
        simp only [List.mem_map] at hx
        obtain ⟨loc, hloc, rfl⟩ := hx
        exact (local_infeas_zero_iff loc (hpos loc hloc)).mpr (hall loc hloc)
    · intro x hx
      simp only [List.mem_map] at hx
      obtain ⟨loc, hloc, rfl⟩ := hx
      exact local_infeas_nonneg loc (hpos loc hloc)
  refine ⟨hpart, ?_, hzero⟩
  rw [← hzero]
  constructor <;> intro h <;> linarith

/-- C9 witness: two ranks, one feasible scenario each, probability one
half, all probabilities positive. -/
theorem feas_infeas_partition_amended_witness :
    feas_prob [[⟨1/2, true⟩], [⟨1/2, true⟩]] + infeas_prob [[⟨1/2, true⟩], [⟨1/2, true⟩]] =
      update_E1 [[⟨1/2, true⟩], [⟨1/2, true⟩]] ∧
    (feas_prob [[⟨1/2, true⟩], [⟨1/2, true⟩]] = update_E1 [[⟨1/2, true⟩], [⟨1/2, true⟩]] ↔
      ∀ loc ∈ [[(⟨1/2, true⟩ : Scen)], [⟨1/2, true⟩]], ∀ s ∈ loc, s.scenario_feasible = true) ∧
    (infeas_prob [[⟨1/2, true⟩], [⟨1/2, true⟩]] = 0 ↔
      ∀ loc ∈ [[(⟨1/2, true⟩ : Scen)], [⟨1/2, true⟩]], ∀ s ∈ loc, s.scenario_feasible = true) :=
  feas_infeas_partition_amended [[⟨1/2, true⟩], [⟨1/2, true⟩]]
    (by
      intro loc hloc s hs
      rcases List.mem_cons.mp hloc with h | h
      · subst h
        rcases List.mem_singleton.mp hs with rfl
        norm_num
      · rcases List.mem_singleton.mp h with rfl
        rcases List.mem_singleton.mp hs with rfl
        norm_num)

/-- C9 counterexample: a single infeasible scenario of probability 0 makes
`infeas_prob()` equal 0 and `feas_prob()` equal E1 although not every
scenario is feasible, refuting the two "exactly when" equivalences of the
claim as stated. -/
theorem feas_infeas_counterexample :
    infeas_prob [[⟨0, false⟩]] = 0 ∧
    feas_prob [[⟨0, false⟩]] = update_E1 [[⟨0, false⟩]] ∧
    ¬ (∀ loc ∈ [[(⟨0, false⟩ : Scen)]], ∀ s ∈ loc, s.scenario_feasible = true) := by
  refine ⟨?_, ?_, ?_⟩
  · norm_num [infeas_prob, allreduce_sum, local_infeas_sum]
  · norm_num [feas_prob, update_E1, allreduce_sum, local_feas_sum, local_prob_sum]
  · intro h
    have := h [⟨0, false⟩] (by simp) ⟨0, false⟩ (by simp)
    simp at this

/-! ## Claim C10 -/

/-- One scenario's round trip: saving, then tampering arbitrarily with the
nonanticipative Vars (same index structure), then restoring puts every
Var's value and fixedness back to the saved state. -/
theorem restore_save_scen (s : ScenarioNonants) (tampered : List NonantVar)
    (hlen : tampered.length = s.nonants.length) :
    (restore_nonants_scen (set_nonants tampered (save_nonants_scen s))).nonants
      = s.nonants := by
  show ((List.range tampered.length).map
      (fun ci => { value := (s.nonants.map (fun v => v.value)).getD ci 0,
                   fixed := (s.nonants.map (fun v => v.fixed)).getD ci false })) = s.nonants
  rw [hlen]
  apply List.ext_getElem
  · simp
  · intro i h1 h2
    simp only [List.getElem_map, List.getElem_range]
    rw [List.getD_eq_getElem (s.nonants.map (fun v => v.value)) 0 (by simpa using h2),
      List.getD_eq_getElem (s.nonants.map (fun v => v.fixed)) false (by simpa using h2)]
    simp only [List.getElem_map]

/-- C10: for every set of local scenarios, `_save_nonants()` followed —
after arbitrary modifications of the nonanticipative Vars (values and
fixedness; the index structure stays, as the source docstrings require) —
by `_restore_nonants()` is a round trip: every Var's value and fixedness
equal what they were at the moment of the save. -/
theorem save_restore_roundtrip (ss : List ScenarioNonants)
    (tampered : List (List NonantVar))
    (hlen : List.Forall₂ (fun t s => t.length = s.nonants.length) tampered ss) :
    (restore_nonants (List.zipWith set_nonants tampered (save_nonants ss))).map
        (fun s => s.nonants)
      = ss.map (fun s => s.nonants) := by
  induction hlen with
  | nil => rfl
  | @cons t s ts rest h hrest ih =>
      simp only [save_nonants, List.map_cons, List.zipWith_cons_cons,
        restore_nonants] at ih ⊢
      rw [restore_save_scen s t h]
      simp only [List.cons.injEq]
      exact ⟨trivial, ih⟩

/-- C10 witness: one scenario with two Vars, tampered in between; the
restore brings back the saved values and fixedness. -/
theorem save_restore_roundtrip_witness :
    (restore_nonants (List.zipWith set_nonants [[⟨9, false⟩, ⟨8, true⟩]]
        (save_nonants [{ nonants := [⟨3, true⟩, ⟨4, false⟩],
                         nonant_cache := none, fixedness_cache := none }]))).map
        (fun s => s.nonants)
      = [({ nonants := [⟨3, true⟩, ⟨4, false⟩],
            nonant_cache := none, fixedness_cache := none } : ScenarioNonants)].map
          (fun s => s.nonants) :=
  save_restore_roundtrip _ _ (List.Forall₂.cons (by decide) List.Forall₂.nil)

/-! ## Claim C8 -/

/-- Extract one ordered pair from the per-rank program order. -/
theorem pairwise_lt_of_get {f : RunAction → Int} {l : List RunAction}
    (h : l.Pairwise (fun a b => f a < f b)) (i j : Nat) (hi : i < l.length)
    (hj : j < l.length) (hij : i < j) :
    f (l.get ⟨i, hi⟩) < f (l.get ⟨j, hj⟩) :=
  List.pairwise_iff_get.mp h ⟨i, hi⟩ ⟨j, hj⟩ hij

/-- C8: in every execution of the shutdown tail of `WheelSpinner.run` the
hub representative's terminate signal precedes every process's
`finalize()` (on the hub by program order, on a spoke because its `main`
only returns after observing the signal — modelled from the spec); every
`finalize()` precedes the full-communicator barrier arrival and every
`free_windows()` follows that barrier's departure, so the barrier
separates them; `hub_finalize()` runs after that barrier and before
`free_windows()`; and consequently no process's `free_windows()` happens
before every process has completed `finalize()`. -/
theorem run_shutdown_ordering (n k : Nat) (_hk : 0 < k) (E : RunExec n k) :
    (∀ q, q < n → E.t (hubOf k q) .sendTerminate < E.t q .finalize) ∧
    (∀ p q, p < n → q < n →
      E.t q .finalize < E.t q .barrier1Arrive ∧
      E.t q .barrier1Arrive < E.t p .barrier1Leave ∧
      E.t p .barrier1Leave < E.t p .freeWindows) ∧
    (∀ p, p < n →
      E.t p .barrier1Leave < E.t p .hubFinalize ∧
      E.t p .hubFinalize < E.t p .freeWindows) ∧
    (∀ p q, p < n → q < n → E.t q .finalize < E.t p .freeWindows) := by
  have porder_facts : ∀ g, g < n →
      E.t g .finalize < E.t g .barrier1Arrive ∧
      E.t g .barrier1Leave < E.t g .hubFinalize ∧
      E.t g .hubFinalize < E.t g .freeWindows ∧
      E.t g .mainEnd < E.t g .finalize := by
    intro g hg
    have hp := E.porder g hg
    by_cases hh : g % k = 0
    · rw [show (g % k == 0) = true by simpa using hh] at hp
      exact ⟨pairwise_lt_of_get hp 2 5 (by decide) (by decide) (by decide),
        pairwise_lt_of_get hp 6 7 (by decide) (by decide) (by decide),
        pairwise_lt_of_get hp 7 8 (by decide) (by decide) (by decide),
        pairwise_lt_of_get hp 0 2 (by decide) (by decide) (by decide)⟩
    · rw [show (g % k == 0) = false by simpa using hh] at hp
      exact ⟨pairwise_lt_of_get hp 1 4 (by decide) (by decide) (by decide),
        pairwise_lt_of_get hp 5 6 (by decide) (by decide) (by decide),
        pairwise_lt_of_get hp 6 7 (by decide) (by decide) (by decide),
        pairwise_lt_of_get hp 0 1 (by decide) (by decide) (by decide)⟩
  have hub_term_fin : ∀ g, g < n → g % k = 0 →
      E.t g .sendTerminate < E.t g .finalize := by
    intro g hg hh
    have hp := E.porder g hg
    rw [show (g % k == 0) = true by simpa using hh] at hp
    exact pairwise_lt_of_get hp 1 2 (by decide) (by decide) (by decide)
  have hA : ∀ q, q < n → E.t (hubOf k q) .sendTerminate < E.t q .finalize := by
    intro q hq
    by_cases hq0 : q % k = 0
    · have hhub : hubOf k q = q := by
        unfold hubOf
        exact Nat.div_mul_cancel (Nat.dvd_of_mod_eq_zero hq0)
      rw [hhub]
      exact hub_term_fin q hq hq0
    · exact lt_trans (E.termVisible q hq hq0) (porder_facts q hq).2.2.2
  have hB : ∀ p q, p < n → q < n →
      E.t q .finalize < E.t q .barrier1Arrive ∧
      E.t q .barrier1Arrive < E.t p .barrier1Leave ∧
      E.t p .barrier1Leave < E.t p .freeWindows := by
    intro p q hp hq
    refine ⟨(porder_facts q hq).1, E.barrier1Sync p hp q hq, ?_⟩
    exact lt_trans (porder_facts p hp).2.1 (porder_facts p hp).2.2.1
  refine ⟨hA, hB, ?_, ?_⟩
  · intro p hp
    exact ⟨(porder_facts p hp).2.1, (porder_facts p hp).2.2.1⟩
  · intro p q hp hq
    obtain ⟨h1, h2, h3⟩ := hB p q hp hq
    exact lt_trans h1 (lt_trans h2 h3)

/-- C8 witness: the ordering facts instantiated on the concrete two-rank
execution `demoExec` (rank 0 the hub, rank 1 a spoke). -/
theorem run_shutdown_ordering_witness :
    demoExec.t (hubOf 2 1) .sendTerminate < demoExec.t 1 .finalize ∧
    (demoExec.t 1 .finalize < demoExec.t 1 .barrier1Arrive ∧
     demoExec.t 1 .barrier1Arrive < demoExec.t 0 .barrier1Leave ∧
     demoExec.t 0 .barrier1Leave < demoExec.t 0 .freeWindows) ∧
    (demoExec.t 0 .barrier1Leave < demoExec.t 0 .hubFinalize ∧
     demoExec.t 0 .hubFinalize < demoExec.t 0 .freeWindows) ∧
    demoExec.t 1 .finalize < demoExec.t 0 .freeWindows := by
  obtain ⟨ha, hb, hc, hd⟩ := run_shutdown_ordering 2 2 (by decide) demoExec
  exact ⟨ha 1 (by decide), hb 0 1 (by decide) (by decide), hc 0 (by decide),
    hd 0 1 (by decide) (by decide)⟩

end MpiSppy
